import Mathlib

set_option autoImplicit false
set_option maxRecDepth 8000

namespace RedisDemo

/-! Shallow embedding of `src/redis_demo.py`.

The cache service is an external collaborator: every call the script makes to
it (SET-with-expiry, GET, EXISTS, INFO) is modelled by an input describing the
collaborator's response, and the script's control flow is a pure function of
those inputs.  Python exceptions are modelled explicitly: a call that can raise
yields either a normal value or an exception value, and the script's
`try/except` structure is translated branch by branch. -/

/-- Value found under a database name in the keyspace dictionary returned by
`INFO keyspace`: either a mapping, possibly holding a count under the name
`keys`, or some non-mapping value (the `isinstance(db0_info, dict)` test in the
source distinguishes the two). -/
inductive DbVal where
  | dict (keys : Option Nat)
  | nonDict
  deriving DecidableEq

/-- The dictionary returned by `redis_client.info("memory")`: the source reads
only `used_memory` and `maxmemory`, each with default 0, so only those two
entries are modelled (absent entry = `none`). -/
structure MemInfo where
  used_memory : Option Nat
  maxmemory : Option Nat
  deriving DecidableEq

/-- The dictionary returned by `redis_client.info("keyspace")`: the source reads
only the `db0` entry (default: empty dict), so only that entry is modelled. -/
structure KeyspaceInfo where
  db0 : Option DbVal
  deriving DecidableEq

/-- Combined outcome of the two INFO calls performed inside `get_redis_info`'s
`try` block: either both succeed with the given dictionaries, or some call
raises an exception carrying the given message. -/
inductive InfoCall where
  | ok (mem : MemInfo) (keyspace : KeyspaceInfo)
  | fails (e : String)
  deriving DecidableEq

/-- The dictionary `get_redis_info` returns (telemetry snapshot).  The Python
float `memory_percent` is modelled as an exact rational. -/
structure RInfo where
  used_memory : Nat
  max_memory : Nat
  key_count : Nat
  memory_percent : ℚ
  error : Option String
  deriving DecidableEq

/-- `get_redis_info` from `redis_demo.py` lines 30-54: on any exception from the
INFO calls it returns a zeroed dictionary carrying an `error` entry; otherwise
it extracts `used_memory`, `maxmemory` and the `db0` key count (each defaulting
to 0) and computes `memory_percent = used/max*100` when `max_memory > 0`,
else 0. -/
def get_redis_info : InfoCall → RInfo
  | .fails e => ⟨0, 0, 0, 0, some e⟩
  | .ok mem keyspace =>
      let used_memory := mem.used_memory.getD 0
      let max_memory := mem.maxmemory.getD 0
      let db0_info := keyspace.db0.getD (DbVal.dict none)
      let key_count := match db0_info with
        | .dict k => k.getD 0
        | .nonDict => 0
      ⟨used_memory, max_memory, key_count,
        if max_memory > 0 then (used_memory : ℚ) / (max_memory : ℚ) * 100 else 0,
        none⟩

/-- C3: the telemetry probe never raises: it is a total function of the INFO
outcome.  When an INFO call fails it returns a snapshot with `used_memory`,
`max_memory`, `key_count` and `memory_percent` all zero and an `error` entry
holding the failure message; when the calls succeed it returns the reported
numbers — `used_memory`, `maxmemory`, and the `db0` keys count (0 when the
`db0` entry is absent, not a mapping, or lacks a `keys` entry) — with no
`error` entry and `memory_percent = used/max*100` when `max_memory > 0`,
else 0. -/
theorem get_redis_info_total_spec (e : String) (mem : MemInfo) (ks : KeyspaceInfo) :
    get_redis_info (.fails e) = ⟨0, 0, 0, 0, some e⟩ ∧
    (get_redis_info (.ok mem ks)).error = none ∧
    (get_redis_info (.ok mem ks)).used_memory = mem.used_memory.getD 0 ∧
    (get_redis_info (.ok mem ks)).max_memory = mem.maxmemory.getD 0 ∧
    (get_redis_info (.ok mem ks)).key_count =
      (match ks.db0 with
        | some (.dict k) => k.getD 0
        | some .nonDict => 0
        | none => 0) ∧
    (get_redis_info (.ok mem ks)).memory_percent =
      (if mem.maxmemory.getD 0 > 0
        then (mem.used_memory.getD 0 : ℚ) / (mem.maxmemory.getD 0 : ℚ) * 100
        else 0) := by
  refine ⟨rfl, rfl, rfl, rfl, ?_, ?_⟩
  · cases h : ks.db0 with
    | none => simp [get_redis_info, h]
    | some v => cases v <;> simp [get_redis_info, h]
  · simp [get_redis_info]

/-- C10: when the INFO calls succeed but the keyspace dictionary has no `db0`
entry, or has one that is not a mapping, the probe returns `key_count = 0` in an
ordinary snapshot with no `error` entry. -/
theorem get_redis_info_empty_db (mem : MemInfo) (ks : KeyspaceInfo)
    (h : ks.db0 = none ∨ ks.db0 = some .nonDict) :
    (get_redis_info (.ok mem ks)).key_count = 0 ∧
    (get_redis_info (.ok mem ks)).error = none := by
  rcases h with h | h <;> simp [get_redis_info, h]

/-- Witness for C10 at a concrete input: a keyspace report with no `db0` entry
yields key count 0 and no error. -/
theorem get_redis_info_empty_db_witness :
    ((⟨some (.dict none)⟩ : KeyspaceInfo).db0 = none ∨
      (⟨none⟩ : KeyspaceInfo).db0 = none) ∧
    (get_redis_info (.ok ⟨some 5, some 10⟩ ⟨none⟩)).key_count = 0 ∧
    (get_redis_info (.ok ⟨some 5, some 10⟩ ⟨none⟩)).error = none := by
  exact ⟨Or.inr rfl, get_redis_info_empty_db ⟨some 5, some 10⟩ ⟨none⟩ (Or.inl rfl)⟩

/-- A Python exception raised by a collaborator call, as the source
distinguishes them: a `redis.exceptions.ResponseError` or any other
exception, with its message (`str(e)`). -/
inductive Exc where
  | responseError (msg : String)
  | other (msg : String)
  deriving DecidableEq

/-- The message `str(e)` of an exception. -/
def Exc.msg : Exc → String
  | .responseError m => m
  | .other m => m

/-- Python's substring test `pat in s`. -/
def strContains (s pat : String) : Bool :=
  (List.range (s.data.length + 1)).any fun i => pat.data.isPrefixOf (s.data.drop i)

/-- The memory-limit test on a `ResponseError` message, line 186:
`"OOM" in str(e) or "maxmemory" in str(e)`. -/
def isOOM (m : String) : Bool :=
  strContains m "OOM" || strContains m "maxmemory"

/-- Outcome of one `setex` write: success (followed by the outcome of the
post-write INFO calls) or an exception. -/
inductive WriteOutcome where
  | ok (info : InfoCall)
  | err (e : Exc)
  deriving DecidableEq

/-- One iteration's collaborator behaviour in a fill loop: the generated key
and the write outcome. -/
structure Step where
  key : String
  outcome : WriteOutcome
  deriving DecidableEq

/-- How the phase-1 (LRU) fill loop, lines 152-194, ends.  `threshold`: the
post-write snapshot reported more than 95 percent utilization (`break` at line
181).  `rejection`: a `ResponseError` citing the memory limit set the error
flag and broke out (lines 186-189).  `abortedLogged`: any other exception was
printed and broke out (lines 192-194).  `propagated`: a `ResponseError` not
citing the memory limit was re-raised (line 191), escaping the loop as an
exception.  `ranOut`: the modelled response trace ended with the loop still
running. -/
inductive StopReason where
  | threshold
  | rejection (msg : String)
  | abortedLogged (msg : String)
  | propagated (msg : String)
  | ranOut
  deriving DecidableEq

/-- Result of the phase-1 fill loop: the accumulated `lru_keys` list and how
the loop stopped. -/
structure FillResult where
  keys : List String
  stop : StopReason
  deriving DecidableEq

/-- The phase-1 `while True` fill loop, lines 152-194, as a function of the
collaborator's response trace.  On a successful write the key is appended and
the loop breaks if the fresh snapshot reports more than 95 percent; on a
`ResponseError` whose message cites the memory limit it records the rejection
and stops; on any other `ResponseError` it re-raises; on any other exception it
logs and stops.  A raising write does not append its key. -/
def fillLRU : List Step → List String → FillResult
  | [], acc => ⟨acc, .ranOut⟩
  | s :: rest, acc =>
    match s.outcome with
    | .ok info =>
        let acc2 := acc ++ [s.key]
        if (get_redis_info info).memory_percent > 95 then ⟨acc2, .threshold⟩
        else fillLRU rest acc2
    | .err (.responseError m) =>
        if isOOM m then ⟨acc, .rejection ("Memory limit reached: " ++ m)⟩
        else ⟨acc, .propagated m⟩
    | .err (.other m) => ⟨acc, .abortedLogged m⟩

/-- A trace step for an iteration whose write succeeds. -/
def okStep (p : String × InfoCall) : Step := ⟨p.1, .ok p.2⟩

/-- The utilization the snapshot of the j-th successful iteration reports. -/
def uAt (tr : List (String × InfoCall)) (j : Nat) : ℚ :=
  (get_redis_info (tr.getD j ("", .fails "")).2).memory_percent

theorem fillLRU_ok_accum (pre : List (String × InfoCall)) (rest : List Step)
    (acc : List String)
    (hpre : ∀ p ∈ pre, ¬ (get_redis_info p.2).memory_percent > 95) :
    fillLRU (pre.map okStep ++ rest) acc = fillLRU rest (acc ++ pre.map Prod.fst) := by
  induction pre generalizing acc with
  | nil => simp
  | cons p pre ih =>
    have hp := hpre p (by simp)
    simp only [List.map_cons, List.cons_append, fillLRU, okStep, if_neg hp, List.append_eq]
    rw [ih _ fun q hq => hpre q (by simp [hq])]
    simp

/-- A successful write whose post-write snapshot reports `maxmemory 0`
(unbounded), hence utilization 0. -/
def infoLow : InfoCall := .ok ⟨some 10, some 0⟩ ⟨some (.dict (some 1))⟩

/-- A successful write whose post-write snapshot reports 100 percent
utilization (used 100 of 100 bytes). -/
def infoHigh : InfoCall := .ok ⟨some 100, some 100⟩ ⟨some (.dict (some 50))⟩

/-- C2: if the first `n-1` writes of the saturation loop succeed with snapshots
at or below the threshold and the `n`-th write raises a `ResponseError` citing
the memory limit, the loop stops without an escaping exception: the result is
an ordinary value whose key list is exactly the `n-1` previously successful
keys (the rejected key is not appended) and whose stop reason records the
rejection message, distinct from both a threshold stop and a propagated
exception. -/
theorem fillLRU_capacity_rejection (pre : List (String × InfoCall))
    (key m : String) (rest : List Step)
    (hpre : ∀ p ∈ pre, (get_redis_info p.2).memory_percent ≤ 95)
    (hm : isOOM m = true) :
    fillLRU (pre.map okStep ++ ⟨key, .err (.responseError m)⟩ :: rest) [] =
      ⟨pre.map Prod.fst, .rejection ("Memory limit reached: " ++ m)⟩ ∧
    (pre.map Prod.fst).length = pre.length ∧
    StopReason.rejection ("Memory limit reached: " ++ m) ≠ .threshold ∧
    ∀ m2, StopReason.rejection ("Memory limit reached: " ++ m) ≠ .propagated m2 := by
  refine ⟨?_, by simp, by simp, by simp⟩
  rw [fillLRU_ok_accum pre _ [] fun p hp => not_lt.mpr (hpre p hp)]
  simp [fillLRU, hm]

/-- Witness for C2: two successful low-utilization writes followed by a
memory-limit rejection on the third write leave exactly the two keys and a
rejection stop reason. -/
theorem fillLRU_capacity_rejection_witness :
    (∀ p ∈ ([("k1", infoLow), ("k2", infoLow)] : List (String × InfoCall)),
        (get_redis_info p.2).memory_percent ≤ 95) ∧
    isOOM "OOM command not allowed when used memory reaches maxmemory" = true ∧
    (fillLRU ([("k1", infoLow), ("k2", infoLow)].map okStep ++
        ⟨"k3", .err (.responseError
          "OOM command not allowed when used memory reaches maxmemory")⟩ :: []) [] =
      ⟨["k1", "k2"], .rejection ("Memory limit reached: " ++
        "OOM command not allowed when used memory reaches maxmemory")⟩ ∧
    (([("k1", infoLow), ("k2", infoLow)] : List (String × InfoCall)).map
        Prod.fst).length = 2 ∧
    StopReason.rejection ("Memory limit reached: " ++
      "OOM command not allowed when used memory reaches maxmemory") ≠ .threshold ∧
    ∀ m2, StopReason.rejection ("Memory limit reached: " ++
      "OOM command not allowed when used memory reaches maxmemory") ≠
        .propagated m2) := by
  refine ⟨by decide, by decide, ?_⟩
  exact fillLRU_capacity_rejection [("k1", infoLow), ("k2", infoLow)] "k3"
    "OOM command not allowed when used memory reaches maxmemory" []
    (by decide) (by decide)

/-- C4: when every write of the saturation loop succeeds and iteration `i` is
the first whose post-write snapshot reports utilization strictly above 95, the
loop stops there with a threshold stop; its key list is the keys of iterations
0 through `i`, so every key written before the stopping iteration is in the
list; and if the pre-loop utilization `u0` was at most 95 and each write raises
the reported utilization by at most `d` (one write's worth of payload), the
utilization at stop is at most `95 + d`. -/
theorem fillLRU_first_threshold (tr : List (String × InfoCall)) (i : Nat)
    (hi : i < tr.length) (d u0 : ℚ)
    (hbefore : ∀ j, j < i → uAt tr j ≤ 95)
    (hover : uAt tr i > 95)
    (hu0 : u0 ≤ 95)
    (hfirst : uAt tr 0 ≤ u0 + d)
    (hgrow : ∀ j, j + 1 ≤ i → uAt tr (j + 1) ≤ uAt tr j + d) :
    fillLRU (tr.map okStep) [] = ⟨(tr.take (i + 1)).map Prod.fst, .threshold⟩ ∧
    uAt tr i ≤ 95 + d ∧
    ∀ j, j < i → (tr.getD j ("", .fails "")).1 ∈ (tr.take (i + 1)).map Prod.fst := by
  have hu : ∀ j, (hj : j < tr.length) →
      uAt tr j = (get_redis_info (tr[j].2)).memory_percent := by
    intro j hj
    unfold uAt
    rw [List.getD_eq_getElem _ _ hj]
  refine ⟨?_, ?_, ?_⟩
  · have hside : ∀ p ∈ tr.take i, ¬ (get_redis_info p.2).memory_percent > 95 := by
      intro p hp
      obtain ⟨j, hj, rfl⟩ := List.mem_iff_getElem.mp hp
      have hjlt : j < i := by
        have := hj
        simp only [List.length_take] at this
        omega
      have hjlen : j < tr.length := by omega
      rw [List.getElem_take]
      rw [← hu j hjlen]
      exact not_lt.mpr (hbefore j hjlt)
    have h1 : fillLRU (tr.map okStep) [] =
        fillLRU ((tr.drop i).map okStep) ([] ++ (tr.take i).map Prod.fst) := by
      rw [← fillLRU_ok_accum (tr.take i) ((tr.drop i).map okStep) [] hside,
        ← List.map_append, List.take_append_drop]
    rw [h1, List.drop_eq_getElem_cons hi]
    simp only [List.map_cons, fillLRU, okStep, List.nil_append]
    rw [if_pos (by rw [← hu i hi]; exact hover)]
    have h2 : tr.take (i + 1) = tr.take i ++ [tr[i]] := by
      rw [List.take_succ, List.getElem?_eq_getElem hi]
      rfl
    rw [h2, List.map_append]
    rfl
  · rcases Nat.eq_zero_or_pos i with rfl | hpos
    · linarith
    · obtain ⟨k, rfl⟩ : ∃ k, i = k + 1 := ⟨i - 1, by omega⟩
      have h1 := hgrow k (by omega)
      have h2 := hbefore k (by omega)
      linarith
  · intro j hj
    have hjlen : j < tr.length := by omega
    rw [List.getD_eq_getElem _ _ hjlen]
    have hjt : j < (tr.take (i + 1)).length := by
      simp only [List.length_take]
      omega
    refine List.mem_map.mpr ⟨(tr.take (i + 1)).get ⟨j, hjt⟩, List.get_mem _ _ _, ?_⟩
    rw [List.get_eq_getElem, List.getElem_take]

/-- Witness for C4 at a concrete trace: a successful write at utilization 0,
then a successful write whose snapshot reports 100 percent; the loop stops at
the second iteration with a threshold stop and both keys in the list. -/
theorem fillLRU_first_threshold_witness :
    (∀ j, j < 1 → uAt [("k1", infoLow), ("k2", infoHigh)] j ≤ 95) ∧
    uAt [("k1", infoLow), ("k2", infoHigh)] 1 > 95 ∧
    (fillLRU (([("k1", infoLow), ("k2", infoHigh)] :
          List (String × InfoCall)).map okStep) [] =
        ⟨(([("k1", infoLow), ("k2", infoHigh)] :
          List (String × InfoCall)).take 2).map Prod.fst, .threshold⟩ ∧
      uAt [("k1", infoLow), ("k2", infoHigh)] 1 ≤ 95 + 100 ∧
      ∀ j, j < 1 →
        (([("k1", infoLow), ("k2", infoHigh)] : List (String × InfoCall)).getD j
            ("", .fails "")).1 ∈
          (([("k1", infoLow), ("k2", infoHigh)] :
            List (String × InfoCall)).take 2).map Prod.fst) := by
  have hb : ∀ j, j < 1 → uAt [("k1", infoLow), ("k2", infoHigh)] j ≤ 95 := by
    intro j hj
    have hj0 : j = 0 := by omega
    subst hj0
    norm_num [uAt, get_redis_info, infoLow]
  have ho : uAt [("k1", infoLow), ("k2", infoHigh)] 1 > 95 := by
    norm_num [uAt, get_redis_info, infoHigh]
  have hg : ∀ j, j + 1 ≤ 1 →
      uAt [("k1", infoLow), ("k2", infoHigh)] (j + 1) ≤
        uAt [("k1", infoLow), ("k2", infoHigh)] j + 100 := by
    intro j hj
    have hj0 : j = 0 := by omega
    subst hj0
    norm_num [uAt, get_redis_info, infoLow, infoHigh]
  exact ⟨hb, ho, fillLRU_first_threshold [("k1", infoLow), ("k2", infoHigh)] 1
    (by decide) 100 0 hb ho (by decide)
    (by norm_num [uAt, get_redis_info, infoLow]) hg⟩

/-- Mutable state of the phase-2 (LFU) fill loop, lines 201-204: the written
keys and the three positional cohorts. -/
structure LfuState where
  lfu_keys : List String
  high_access_keys : List String
  medium_access_keys : List String
  low_access_keys : List String
  deriving DecidableEq

/-- The state before the phase-2 loop: all four lists empty. -/
def LfuState.init : LfuState := ⟨[], [], [], []⟩

/-- The body of a successful phase-2 iteration, lines 236-244: append the key
to `lfu_keys`, then assign it positionally — positions 1-12 to the high
cohort, 13-24 to the medium cohort, 25-48 to the low cohort, later positions
to no cohort. -/
def categorize (st : LfuState) (key : String) : LfuState :=
  let ks := st.lfu_keys ++ [key]
  if ks.length ≤ 12 then
    ⟨ks, st.high_access_keys ++ [key], st.medium_access_keys, st.low_access_keys⟩
  else if ks.length ≤ 24 then
    ⟨ks, st.high_access_keys, st.medium_access_keys ++ [key], st.low_access_keys⟩
  else if ks.length ≤ 48 then
    ⟨ks, st.high_access_keys, st.medium_access_keys, st.low_access_keys ++ [key]⟩
  else
    ⟨ks, st.high_access_keys, st.medium_access_keys, st.low_access_keys⟩

/-- How the phase-2 fill loop ends.  Unlike phase 1, its `except Exception`
handler at lines 257-259 catches every exception (including a memory-limit
`ResponseError`), prints it, and breaks: nothing propagates, so there is no
`propagated` outcome. -/
inductive LfuStop where
  | threshold
  | abortedLogged (msg : String)
  | ranOut
  deriving DecidableEq

/-- The phase-2 `while True` fill loop, lines 215-259, as a function of the
collaborator's response trace: on a successful write the key is appended and
categorized and the loop breaks if the fresh snapshot reports more than 95
percent; on any exception the error is logged and the loop breaks. -/
def fillLFU : List Step → LfuState → LfuState × LfuStop
  | [], st => (st, .ranOut)
  | s :: rest, st =>
    match s.outcome with
    | .ok info =>
        let st2 := categorize st s.key
        if (get_redis_info info).memory_percent > 95 then (st2, .threshold)
        else fillLFU rest st2
    | .err e => (st, .abortedLogged e.msg)

/-- Counterexample to C6 as stated: a write failure that is not a memory-limit
rejection (a connection reset during the phase-1 fill) is logged and breaks the
loop; the loop's outcome is an ordinary value, not a propagated exception, so
the failure is not surfaced to the caller. -/
theorem write_failure_not_propagated_counterexample :
    fillLRU [⟨"k1", .err (.other "Connection reset by peer")⟩] [] =
      ⟨[], .abortedLogged "Connection reset by peer"⟩ ∧
    (fillLRU [⟨"k1", .err (.other "Connection reset by peer")⟩] []).stop ≠
      .propagated "Connection reset by peer" := by
  exact ⟨rfl, by decide⟩

/-- C6 amended: in the phase-1 fill a write failure that is a `ResponseError`
not citing the memory limit is re-raised (propagates to the caller); any other
phase-1 write failure, and every write failure in the phase-2 fill, stops the
phase after logging the message, without propagating. -/
theorem write_failure_handling (key m : String) (rest : List Step)
    (acc : List String) (st : LfuState) (e : Exc)
    (hm : isOOM m = false) :
    fillLRU (⟨key, .err (.responseError m)⟩ :: rest) acc = ⟨acc, .propagated m⟩ ∧
    (∀ m2, fillLRU (⟨key, .err (.other m2)⟩ :: rest) acc =
      ⟨acc, .abortedLogged m2⟩) ∧
    fillLFU (⟨key, .err e⟩ :: rest) st = (st, .abortedLogged e.msg) := by
  refine ⟨?_, fun m2 => rfl, ?_⟩
  · simp [fillLRU, hm]
  · cases e <;> rfl

/-- Witness for the amended C6 at concrete inputs: a `ResponseError` reading
`WRONGTYPE Operation against a key` propagates in phase 1, while any exception
in phase 2 is logged and absorbed. -/
theorem write_failure_handling_witness :
    isOOM "WRONGTYPE Operation against a key" = false ∧
    (fillLRU [⟨"k1", .err (.responseError "WRONGTYPE Operation against a key")⟩]
        [] = ⟨[], .propagated "WRONGTYPE Operation against a key"⟩ ∧
      (∀ m2, fillLRU [⟨"k1", .err (.other m2)⟩] [] = ⟨[], .abortedLogged m2⟩) ∧
      fillLFU [⟨"k1", .err (.other "Connection reset by peer")⟩] LfuState.init =
        (LfuState.init, .abortedLogged "Connection reset by peer")) := by
  exact ⟨by decide, write_failure_handling "k1"
    "WRONGTYPE Operation against a key" [] [] LfuState.init
    (.other "Connection reset by peer") (by decide)⟩

theorem seg_append_mem {α : Type} (l : List α) (x : α) (a b : Nat)
    (h1 : a ≤ l.length) (h2 : l.length < a + b) :
    ((l ++ [x]).drop a).take b = (l.drop a).take b ++ [x] := by
  rw [List.drop_append_eq_append_drop]
  have hx : a - l.length = 0 := by omega
  rw [hx, List.drop_zero, List.take_append_eq_append_take]
  have hlen : (l.drop a).length = l.length - a := List.length_drop a l
  have hone : ([x] : List α).length ≤ b - (l.drop a).length := by
    simp only [List.length_cons, List.length_nil, hlen]
    omega
  rw [List.take_of_length_le hone]

theorem seg_append_before {α : Type} (l : List α) (x : α) (a b : Nat)
    (h : l.length + 1 ≤ a) :
    ((l ++ [x]).drop a).take b = (l.drop a).take b := by
  rw [List.drop_eq_nil_of_le (by simp; omega),
    List.drop_eq_nil_of_le (by omega)]

theorem seg_append_after {α : Type} (l : List α) (x : α) (a b : Nat)
    (h : a + b ≤ l.length) :
    ((l ++ [x]).drop a).take b = (l.drop a).take b := by
  rw [List.drop_append_eq_append_drop]
  have hx : a - l.length = 0 := by omega
  rw [hx, List.drop_zero, List.take_append_eq_append_take]
  have hlen : (l.drop a).length = l.length - a := List.length_drop a l
  have hzero : b - (l.drop a).length = 0 := by omega
  rw [hzero, List.take_zero, List.append_nil]

/-- The positional-cohort invariant of the phase-2 state: the cohorts are the
segments of `lfu_keys` at positions 1-12, 13-24 and 25-48. -/
def cohortInv (st : LfuState) : Prop :=
  st.high_access_keys = st.lfu_keys.take 12 ∧
  st.medium_access_keys = (st.lfu_keys.drop 12).take 12 ∧
  st.low_access_keys = (st.lfu_keys.drop 24).take 24

theorem categorize_inv (st : LfuState) (key : String) (h : cohortInv st) :
    cohortInv (categorize st key) := by
  obtain ⟨hh, hm, hl⟩ := h
  simp only [categorize]
  by_cases h12 : (st.lfu_keys ++ [key]).length ≤ 12
  · have hlen : st.lfu_keys.length + 1 ≤ 12 := by simpa using h12
    rw [if_pos h12]
    refine ⟨?_, ?_, ?_⟩
    · rw [hh]
      have := seg_append_mem st.lfu_keys key 0 12 (Nat.zero_le _) (by omega)
      simpa [List.drop_zero] using this.symm
    · rw [hm]; exact (seg_append_before st.lfu_keys key 12 12 (by omega)).symm
    · rw [hl]; exact (seg_append_before st.lfu_keys key 24 24 (by omega)).symm
  · rw [if_neg h12]
    by_cases h24 : (st.lfu_keys ++ [key]).length ≤ 24
    · have hlen : 12 ≤ st.lfu_keys.length ∧ st.lfu_keys.length + 1 ≤ 24 := by
        constructor <;> (simp at h12 h24; omega)
      rw [if_pos h24]
      refine ⟨?_, ?_, ?_⟩
      · rw [hh]
        have := seg_append_after st.lfu_keys key 0 12 (by omega)
        simpa [List.drop_zero] using this.symm
      · rw [hm]; exact (seg_append_mem st.lfu_keys key 12 12 (by omega) (by omega)).symm
      · rw [hl]; exact (seg_append_before st.lfu_keys key 24 24 (by omega)).symm
    · rw [if_neg h24]
      by_cases h48 : (st.lfu_keys ++ [key]).length ≤ 48
      · have hlen : 24 ≤ st.lfu_keys.length ∧ st.lfu_keys.length + 1 ≤ 48 := by
          constructor <;> (simp at h24 h48; omega)
        rw [if_pos h48]
        refine ⟨?_, ?_, ?_⟩
        · rw [hh]
          have := seg_append_after st.lfu_keys key 0 12 (by omega)
          simpa [List.drop_zero] using this.symm
        · rw [hm]; exact (seg_append_after st.lfu_keys key 12 12 (by omega)).symm
        · rw [hl]; exact (seg_append_mem st.lfu_keys key 24 24 (by omega) (by omega)).symm
      · have hlen : 48 ≤ st.lfu_keys.length := by simp at h48; omega
        rw [if_neg h48]
        refine ⟨?_, ?_, ?_⟩
        · rw [hh]
          have := seg_append_after st.lfu_keys key 0 12 (by omega)
          simpa [List.drop_zero] using this.symm
        · rw [hm]; exact (seg_append_after st.lfu_keys key 12 12 (by omega)).symm
        · rw [hl]; exact (seg_append_after st.lfu_keys key 24 24 (by omega)).symm

theorem fillLFU_inv (steps : List Step) (st : LfuState) (h : cohortInv st) :
    cohortInv (fillLFU steps st).1 := by
  induction steps generalizing st with
  | nil => exact h
  | cons s rest ih =>
    cases hout : s.outcome with
    | ok info =>
      by_cases hp : (get_redis_info info).memory_percent > 95
      · simp only [fillLFU, hout, if_pos hp]
        exact categorize_inv st s.key h
      · simp only [fillLFU, hout, if_neg hp]
        exact ih _ (categorize_inv st s.key h)
    | err e =>
      simp only [fillLFU, hout]
      exact h

/-- The state the phase-2 fill loop leaves behind when run from the empty
initial state on a given response trace. -/
def lfuResult (steps : List Step) : LfuState := (fillLFU steps LfuState.init).1

/-- C9 amended: after the phase-2 fill, the cohorts are the positional
segments of the written-key sequence (first 12 keys high, next 12 medium, next
24 low); under unique key generation they are pairwise disjoint; their union is
a subset of all keys written, and it is a strict subset when more than 48 keys
were written (for shorter runs the union is all of the keys, so strictness
fails in general). -/
theorem cohorts_positional (steps : List Step)
    (hnd : (lfuResult steps).lfu_keys.Nodup) :
    (lfuResult steps).high_access_keys = (lfuResult steps).lfu_keys.take 12 ∧
    (lfuResult steps).medium_access_keys =
      ((lfuResult steps).lfu_keys.drop 12).take 12 ∧
    (lfuResult steps).low_access_keys =
      ((lfuResult steps).lfu_keys.drop 24).take 24 ∧
    (lfuResult steps).high_access_keys.Disjoint
      (lfuResult steps).medium_access_keys ∧
    (lfuResult steps).high_access_keys.Disjoint
      (lfuResult steps).low_access_keys ∧
    (lfuResult steps).medium_access_keys.Disjoint
      (lfuResult steps).low_access_keys ∧
    (∀ k, k ∈ (lfuResult steps).high_access_keys ++
        (lfuResult steps).medium_access_keys ++
        (lfuResult steps).low_access_keys →
      k ∈ (lfuResult steps).lfu_keys) ∧
    (48 < (lfuResult steps).lfu_keys.length →
      ∃ k, k ∈ (lfuResult steps).lfu_keys ∧
        k ∉ (lfuResult steps).high_access_keys ++
          (lfuResult steps).medium_access_keys ++
          (lfuResult steps).low_access_keys) := by
  obtain ⟨hh, hm, hl⟩ :=
    fillLFU_inv steps LfuState.init ⟨rfl, rfl, rfl⟩
  have hh : (lfuResult steps).high_access_keys =
    (lfuResult steps).lfu_keys.take 12 := hh
  have hm : (lfuResult steps).medium_access_keys =
    ((lfuResult steps).lfu_keys.drop 12).take 12 := hm
  have hl : (lfuResult steps).low_access_keys =
    ((lfuResult steps).lfu_keys.drop 24).take 24 := hl
  have hun : (lfuResult steps).high_access_keys ++
      (lfuResult steps).medium_access_keys ++
      (lfuResult steps).low_access_keys =
      (lfuResult steps).lfu_keys.take 48 := by
    rw [hh, hm, hl, List.append_assoc]
    rw [show (48 : Nat) = 12 + 36 from rfl, List.take_add]
    congr 1
    rw [show (36 : Nat) = 12 + 24 from rfl, List.take_add, List.drop_drop]
  have hnd48 : ((lfuResult steps).lfu_keys.take 48).Nodup :=
    List.Nodup.sublist (List.take_sublist _ _) hnd
  have hndu : ((lfuResult steps).high_access_keys ++
      (lfuResult steps).medium_access_keys ++
      (lfuResult steps).low_access_keys).Nodup := by
    rw [hun]; exact hnd48
  have hd1 := List.nodup_append.mp hndu
  have hd2 := List.nodup_append.mp hd1.1
  refine ⟨hh, hm, hl, hd2.2.2, ?_, ?_, ?_, ?_⟩
  · intro a ha
    exact fun hb => hd1.2.2 (List.mem_append_left _ ha) hb
  · intro a ha
    exact fun hb => hd1.2.2 (List.mem_append_right _ ha) hb
  · intro k hk
    rw [hun] at hk
    exact List.take_subset _ _ hk
  · intro hlen
    have hsplit : (lfuResult steps).lfu_keys =
        (lfuResult steps).lfu_keys.take 48 ++ (lfuResult steps).lfu_keys.drop 48 :=
      (List.take_append_drop 48 _).symm
    have hnds : ((lfuResult steps).lfu_keys.take 48 ++
        (lfuResult steps).lfu_keys.drop 48).Nodup := by rw [← hsplit]; exact hnd
    have hdisj := (List.nodup_append.mp hnds).2.2
    have hmem48 : (lfuResult steps).lfu_keys[48] ∈
        (lfuResult steps).lfu_keys.drop 48 := by
      rw [List.drop_eq_getElem_cons hlen]
      exact List.mem_cons_self _ _
    refine ⟨(lfuResult steps).lfu_keys[48], List.getElem_mem _, ?_⟩
    rw [hun]
    exact fun htake => hdisj htake hmem48

/-- The response trace of 49 successful writes with distinct keys and
utilization 0 used to witness C9. -/
def trace49 : List Step :=
  (List.range 49).map fun n => ⟨"key" ++ toString n, .ok infoLow⟩

/-- Witness for the amended C9: a run writing 49 distinct keys has distinct
cohort segments whose union misses at least one written key. -/
theorem cohorts_positional_witness :
    (lfuResult trace49).lfu_keys.Nodup ∧
    ((lfuResult trace49).high_access_keys =
        (lfuResult trace49).lfu_keys.take 12 ∧
      (lfuResult trace49).medium_access_keys =
        ((lfuResult trace49).lfu_keys.drop 12).take 12 ∧
      (lfuResult trace49).low_access_keys =
        ((lfuResult trace49).lfu_keys.drop 24).take 24 ∧
      (lfuResult trace49).high_access_keys.Disjoint
        (lfuResult trace49).medium_access_keys ∧
      (lfuResult trace49).high_access_keys.Disjoint
        (lfuResult trace49).low_access_keys ∧
      (lfuResult trace49).medium_access_keys.Disjoint
        (lfuResult trace49).low_access_keys ∧
      (∀ k, k ∈ (lfuResult trace49).high_access_keys ++
          (lfuResult trace49).medium_access_keys ++
          (lfuResult trace49).low_access_keys →
        k ∈ (lfuResult trace49).lfu_keys) ∧
      (48 < (lfuResult trace49).lfu_keys.length →
        ∃ k, k ∈ (lfuResult trace49).lfu_keys ∧
          k ∉ (lfuResult trace49).high_access_keys ++
            (lfuResult trace49).medium_access_keys ++
            (lfuResult trace49).low_access_keys)) := by
  exact ⟨by decide, cohorts_positional trace49 (by decide)⟩

/-- Counterexample to C9 as stated: a run whose first write already pushes the
snapshot above the threshold ends with one written key, assigned to the high
cohort, so the union of the cohorts is all of the written keys, not a strict
subset. -/
theorem cohorts_union_not_strict_counterexample :
    fillLFU [⟨"k1", .ok infoHigh⟩] LfuState.init =
      (⟨["k1"], ["k1"], [], []⟩, .threshold) ∧
    ∀ k ∈ (fillLFU [⟨"k1", .ok infoHigh⟩] LfuState.init).1.lfu_keys,
      k ∈ (fillLFU [⟨"k1", .ok infoHigh⟩] LfuState.init).1.high_access_keys ++
        (fillLFU [⟨"k1", .ok infoHigh⟩] LfuState.init).1.medium_access_keys ++
        (fillLFU [⟨"k1", .ok infoHigh⟩] LfuState.init).1.low_access_keys := by
  have hcond : (get_redis_info infoHigh).memory_percent > 95 := by
    norm_num [get_redis_info, infoHigh]
  have heq : fillLFU [⟨"k1", .ok infoHigh⟩] LfuState.init =
      (⟨["k1"], ["k1"], [], []⟩, .threshold) := by
    simp only [fillLFU, if_pos hcond]
    rfl
  refine ⟨heq, ?_⟩
  rw [heq]
  intro k hk
  simpa using hk

/-- The list comprehension `[key for key in keys if redis.exists(key)]` used at
lines 348-350: probe each key in order and keep those whose probe returns a
truthy count.  A probe that raises propagates the exception (there is no
`try/except` around these comprehensions in the source). -/
def survivors (probe : String → Except String Bool) :
    List String → Except String (List String)
  | [] => .ok []
  | k :: ks =>
    match probe k with
    | .error e => .error e
    | .ok b =>
      match survivors probe ks with
      | .error e => .error e
      | .ok rest => .ok (if b then k :: rest else rest)

/-- The list comprehension `[key for key in keys if not redis.exists(key)]`
used at lines 352-354: probe each key in order and keep those whose probe
returns a falsy count; a raising probe propagates. -/
def evictedOf (probe : String → Except String Bool) :
    List String → Except String (List String)
  | [] => .ok []
  | k :: ks =>
    match probe k with
    | .error e => .error e
    | .ok b =>
      match evictedOf probe ks with
      | .error e => .error e
      | .ok rest => .ok (if b then rest else k :: rest)

/-- The six per-cohort lists the Survival Analyzer produces, lines 348-354. -/
structure SurvivalResult where
  survived_high : List String
  survived_medium : List String
  survived_low : List String
  evicted_high : List String
  evicted_medium : List String
  evicted_low : List String
  deriving DecidableEq

/-- The Survival Analyzer phase, lines 348-354, in source order: the three
survived comprehensions, then the three evicted comprehensions; the first
probe exception aborts the whole phase. -/
def analyzeSurvival (probe : String → Except String Bool)
    (high medium low : List String) : Except String SurvivalResult :=
  match survivors probe high with
  | .error e => .error e
  | .ok sh =>
    match survivors probe medium with
    | .error e => .error e
    | .ok sm =>
      match survivors probe low with
      | .error e => .error e
      | .ok sl =>
        match evictedOf probe high with
        | .error e => .error e
        | .ok eh =>
          match evictedOf probe medium with
          | .error e => .error e
          | .ok em =>
            match evictedOf probe low with
            | .error e => .error e
            | .ok el => .ok ⟨sh, sm, sl, eh, em, el⟩

/-- An existence probe against a fixed cache state `f` (no failures, answers
determined by the state alone). -/
def pureProbe (f : String → Bool) (k : String) : Except String Bool := .ok (f k)

theorem survivors_pure (f : String → Bool) (keys : List String) :
    survivors (pureProbe f) keys = .ok (keys.filter f) := by
  induction keys with
  | nil => rfl
  | cons k ks ih =>
    simp only [survivors, pureProbe, ih, List.filter]
    cases f k <;> rfl

theorem evictedOf_pure (f : String → Bool) (keys : List String) :
    evictedOf (pureProbe f) keys = .ok (keys.filter fun k => !(f k)) := by
  induction keys with
  | nil => rfl
  | cons k ks ih =>
    simp only [evictedOf, pureProbe, ih, List.filter]
    cases f k <;> rfl

theorem length_filter_add_length_filter_not (p : String → Bool)
    (l : List String) :
    (l.filter p).length + (l.filter fun k => !(p k)).length = l.length := by
  induction l with
  | nil => rfl
  | cons a l ih =>
    cases h : p a <;> simp [List.filter, h] <;> omega

/-- C1: against a fixed cache state, the Survival Analyzer succeeds and
partitions each cohort: for each cohort the survived and evicted lists are the
keys whose existence probe is true resp. false, their lengths sum to the
cohort's size, and every cohort key is in exactly one of the two lists. -/
theorem survival_exhaustive_partition (f : String → Bool)
    (high medium low : List String) :
    analyzeSurvival (pureProbe f) high medium low =
      .ok ⟨high.filter f, medium.filter f, low.filter f,
        high.filter (fun k => !(f k)), medium.filter (fun k => !(f k)),
        low.filter (fun k => !(f k))⟩ ∧
    (high.filter f).length + (high.filter fun k => !(f k)).length =
      high.length ∧
    (medium.filter f).length + (medium.filter fun k => !(f k)).length =
      medium.length ∧
    (low.filter f).length + (low.filter fun k => !(f k)).length = low.length ∧
    (∀ cohort ∈ [high, medium, low], ∀ k ∈ cohort,
      (k ∈ cohort.filter f ∧ k ∉ cohort.filter fun k => !(f k)) ∨
      (k ∉ cohort.filter f ∧ k ∈ cohort.filter fun k => !(f k))) := by
  refine ⟨?_, length_filter_add_length_filter_not f high,
    length_filter_add_length_filter_not f medium,
    length_filter_add_length_filter_not f low, ?_⟩
  · simp only [analyzeSurvival, survivors_pure, evictedOf_pure]
  · intro cohort _ k hk
    cases hf : f k with
    | true =>
      exact Or.inl ⟨List.mem_filter.mpr ⟨hk, hf⟩,
        fun hmem => by simpa [hf] using (List.mem_filter.mp hmem).2⟩
    | false =>
      exact Or.inr ⟨fun hmem => by simpa [hf] using (List.mem_filter.mp hmem).2,
        List.mem_filter.mpr ⟨hk, by simp [hf]⟩⟩

/-- Counterexample to C5 as stated: a failing existence probe is not swallowed
and the key is not counted as evicted — the analysis aborts with the probe's
exception instead of producing the partition the claim predicts. -/
theorem probe_failure_aborts_counterexample :
    analyzeSurvival (fun _ => .error "Connection reset by peer")
      ["session_a"] [] [] = .error "Connection reset by peer" ∧
    analyzeSurvival (fun _ => .error "Connection reset by peer")
      ["session_a"] [] [] ≠ .ok ⟨[], [], [], ["session_a"], [], []⟩ := by
  have h1 : analyzeSurvival (fun _ => .error "Connection reset by peer")
      ["session_a"] [] [] = .error "Connection reset by peer" := rfl
  refine ⟨h1, ?_⟩
  rw [h1]
  intro hcontra
  exact Except.noConfusion hcontra

theorem survivors_ok_probe (probe : String → Except String Bool)
    {keys : List String} {r : List String}
    (h : survivors probe keys = .ok r) :
    ∀ k ∈ keys, ∃ b, probe k = .ok b := by
  induction keys generalizing r with
  | nil => intro k hk; cases hk
  | cons a ks ih =>
    intro k hk
    cases hp : probe a with
    | error e =>
      simp only [survivors, hp] at h
      exact Except.noConfusion h
    | ok b =>
      cases hs : survivors probe ks with
      | error e =>
        simp only [survivors, hp, hs] at h
        exact Except.noConfusion h
      | ok rest =>
        rcases List.mem_cons.mp hk with rfl | hk2
        · exact ⟨b, hp⟩
        · exact ih hs k hk2

/-- C5 amended: a failing existence probe is not swallowed: whenever the probe
fails on some key of some cohort, the Survival Analyzer phase aborts with an
error rather than treating the key as evicted. -/
theorem probe_failure_aborts (probe : String → Except String Bool)
    (high medium low : List String)
    (h : ∃ k, (k ∈ high ∨ k ∈ medium ∨ k ∈ low) ∧ ∃ e, probe k = .error e) :
    ∃ e, analyzeSurvival probe high medium low = .error e := by
  obtain ⟨k, hmem, e, he⟩ := h
  cases hres : analyzeSurvival probe high medium low with
  | error e2 => exact ⟨e2, rfl⟩
  | ok r =>
    exfalso
    cases h1 : survivors probe high with
    | error e3 =>
      simp only [analyzeSurvival, h1] at hres
      exact Except.noConfusion hres
    | ok sh =>
      cases h2 : survivors probe medium with
      | error e3 =>
        simp only [analyzeSurvival, h1, h2] at hres
        exact Except.noConfusion hres
      | ok sm =>
        cases h3 : survivors probe low with
        | error e3 =>
          simp only [analyzeSurvival, h1, h2, h3] at hres
          exact Except.noConfusion hres
        | ok sl =>
          have hok : ∃ b, probe k = .ok b := by
            rcases hmem with hk | hk | hk
            · exact survivors_ok_probe probe h1 k hk
            · exact survivors_ok_probe probe h2 k hk
            · exact survivors_ok_probe probe h3 k hk
          obtain ⟨b, hb⟩ := hok
          rw [he] at hb
          cases hb

/-- Witness for the amended C5 at a concrete input: a probe that times out on
the sole high-cohort key makes the analysis return an error. -/
theorem probe_failure_aborts_witness :
    (∃ k, (k ∈ ["session_b"] ∨ k ∈ ([] : List String) ∨
        k ∈ ([] : List String)) ∧
      ∃ e, (fun _ => (.error "timeout" : Except String Bool)) k = .error e) ∧
    ∃ e, analyzeSurvival (fun _ => .error "timeout") ["session_b"] [] [] =
      .error e := by
  refine ⟨⟨"session_b", Or.inl (by simp), "timeout", rfl⟩, ?_⟩
  exact probe_failure_aborts (fun _ => .error "timeout") ["session_b"] [] []
    ⟨"session_b", Or.inl (by simp), "timeout", rfl⟩

/-- The `evicted_keys` computation at line 331:
`max(0, (initial_key_count + i + 1) - current_keys)` after the `(i+1)`-th
write of the eviction-trigger phase.  Python integers subtract exactly, so the
difference is taken in `Int`. -/
def evictedSoFar (initial i current : Nat) : Int :=
  max 0 ((initial : Int) + i + 1 - current)

/-- One iteration's collaborator behaviour in the phase-3 loop: either the
write succeeds and the re-sampled snapshot reports the given key count, or
some call in the iteration raises. -/
inductive TrigStep where
  | ok (current : Nat)
  | err (msg : String)
  deriving DecidableEq

/-- The body of phase 3, lines 308-343: iterate over the remaining trace with
the running iteration index, reporting `evicted_keys` after each successful
write; the first exception breaks out of the loop. -/
def runTrigger (initial : Nat) : Nat → List TrigStep → List Int
  | _, [] => []
  | i, .ok current :: rest =>
    evictedSoFar initial i current :: runTrigger initial (i + 1) rest
  | _, .err _ :: _ => []

/-- The phase-3 eviction-trigger loop: `for i in range(50)` (at most 50
iterations), reporting the running eviction estimate after each write. -/
def evictionPhase (initial : Nat) (steps : List TrigStep) : List Int :=
  runTrigger initial 0 (steps.take 50)

theorem runTrigger_ok_length (initial i : Nat) (cs : List Nat) :
    (runTrigger initial i (cs.map TrigStep.ok)).length = cs.length := by
  induction cs generalizing i with
  | nil => rfl
  | cons c cs ih => simp [runTrigger, ih]

theorem runTrigger_ok_getD (initial : Nat) (cs : List Nat) (i j : Nat)
    (hj : j < cs.length) :
    (runTrigger initial i (cs.map TrigStep.ok)).getD j 0 =
      evictedSoFar initial (i + j) (cs.getD j 0) := by
  induction cs generalizing i j with
  | nil => cases hj
  | cons c cs ih =>
    cases j with
    | zero => rfl
    | succ j =>
      have hj2 : j < cs.length := by simpa using hj
      have := ih (i + 1) j hj2
      simp only [List.map_cons, runTrigger, List.getD_cons_succ]
      rw [this, show i + 1 + j = i + (j + 1) from by omega]

theorem evictedSoFar_mono (initial j c c2 : Nat) (h : c2 ≤ c + 1) :
    evictedSoFar initial j c ≤ evictedSoFar initial (j + 1) c2 := by
  unfold evictedSoFar
  apply max_le_max le_rfl
  omega

/-- C7: when the first 50 writes of the eviction-trigger phase succeed and the
re-sampled key counts are `currents`, the quantity reported after the
`(i+1)`-th write is `max(0, (initial_key_count + i + 1) - current)`, and,
provided the key count grows by at most one per successful write, the reported
estimate is non-decreasing across iterations. -/
theorem evicted_estimate (initial : Nat) (currents : List Nat)
    (hlen : currents.length ≤ 50)
    (hmono : ∀ j, j + 1 < currents.length →
      currents.getD (j + 1) 0 ≤ currents.getD j 0 + 1) :
    (∀ j, j < (evictionPhase initial (currents.map TrigStep.ok)).length →
      (evictionPhase initial (currents.map TrigStep.ok)).getD j 0 =
        evictedSoFar initial j (currents.getD j 0)) ∧
    (∀ j, j + 1 < (evictionPhase initial (currents.map TrigStep.ok)).length →
      (evictionPhase initial (currents.map TrigStep.ok)).getD j 0 ≤
        (evictionPhase initial (currents.map TrigStep.ok)).getD (j + 1) 0) := by
  have hphase : evictionPhase initial (currents.map TrigStep.ok) =
      runTrigger initial 0 (currents.map TrigStep.ok) := by
    unfold evictionPhase
    rw [← List.map_take, List.take_of_length_le hlen]
  have hlength : (evictionPhase initial (currents.map TrigStep.ok)).length =
      currents.length := by
    rw [hphase, runTrigger_ok_length]
  constructor
  · intro j hj
    rw [hlength] at hj
    rw [hphase, runTrigger_ok_getD initial currents 0 j hj, Nat.zero_add]
  · intro j hj
    rw [hlength] at hj
    rw [hphase, runTrigger_ok_getD initial currents 0 j (by omega),
      runTrigger_ok_getD initial currents 0 (j + 1) (by omega),
      Nat.zero_add, Nat.zero_add]
    exact evictedSoFar_mono initial j _ _ (hmono j hj)

/-- Witness for C7 at a concrete run: initial key count 40, key counts 40, 40
and 41 after the three writes — the reports are 1, 2 and 2, matching the
formula and non-decreasing. -/
theorem evicted_estimate_witness :
    ([40, 40, 41] : List Nat).length ≤ 50 ∧
    (∀ j, j + 1 < ([40, 40, 41] : List Nat).length →
      ([40, 40, 41] : List Nat).getD (j + 1) 0 ≤
        ([40, 40, 41] : List Nat).getD j 0 + 1) ∧
    ((∀ j, j < (evictionPhase 40 ([40, 40, 41].map TrigStep.ok)).length →
      (evictionPhase 40 ([40, 40, 41].map TrigStep.ok)).getD j 0 =
        evictedSoFar 40 j (([40, 40, 41] : List Nat).getD j 0)) ∧
    (∀ j, j + 1 < (evictionPhase 40 ([40, 40, 41].map TrigStep.ok)).length →
      (evictionPhase 40 ([40, 40, 41].map TrigStep.ok)).getD j 0 ≤
        (evictionPhase 40 ([40, 40, 41].map TrigStep.ok)).getD (j + 1) 0)) := by
  have hm : ∀ j, j + 1 < ([40, 40, 41] : List Nat).length →
      ([40, 40, 41] : List Nat).getD (j + 1) 0 ≤
        ([40, 40, 41] : List Nat).getD j 0 + 1 := by
    intro j hj
    simp only [List.length_cons, List.length_nil] at hj
    have hj2 : j < 2 := by omega
    interval_cases j <;> decide
  exact ⟨by decide, hm, evicted_estimate 40 [40, 40, 41] (by decide) hm⟩

/-- An operation issued against the cache in a phase: a GET or a SET. -/
inductive CacheOp where
  | read (key : String)
  | write (key : String)
  deriving DecidableEq

/-- One `try: lfu_redis.get(key) except: pass` at lines 267-270 (and 276-279,
285-288): the read is attempted and its outcome — a value, absence, or an
exception — is discarded, so the attempt is recorded either way. -/
def attemptRead (response : String → Except String (Option String))
    (key : String) : CacheOp :=
  match response key with
  | .ok _ => .read key
  | .error _ => .read key

/-- The access-pattern phase, lines 264-289: for each high-cohort key 10 GET
attempts, then for each medium-cohort key 5, then for each low-cohort key 2,
as the sequence of operations issued to the cache. -/
def accessPhase (response : String → Except String (Option String))
    (high medium low : List String) : List CacheOp :=
  (high.flatMap fun k => (List.range 10).map fun _ => attemptRead response k) ++
  ((medium.flatMap fun k => (List.range 5).map fun _ => attemptRead response k) ++
    (low.flatMap fun k => (List.range 2).map fun _ => attemptRead response k))

theorem attemptRead_eq (response : String → Except String (Option String))
    (key : String) : attemptRead response key = .read key := by
  unfold attemptRead
  cases response key <;> rfl

/-- The reads a cohort contributes: `n` per key, in key order. -/
def cohortReads (n : Nat) (keys : List String) : List CacheOp :=
  keys.flatMap fun k => List.replicate n (CacheOp.read k)

theorem accessPhase_canonical (response : String → Except String (Option String))
    (high medium low : List String) :
    accessPhase response high medium low =
      cohortReads 10 high ++ (cohortReads 5 medium ++ cohortReads 2 low) := by
  have hmap : ∀ (n : Nat) (k : String),
      (List.range n).map (fun _ => attemptRead response k) =
        List.replicate n (CacheOp.read k) := by
    intro n k
    rw [show (fun (_ : Nat) => attemptRead response k) =
        fun _ => CacheOp.read k from funext fun _ => attemptRead_eq response k]
    rw [List.map_const', List.length_range]
  unfold accessPhase cohortReads
  rw [funext (hmap 10), funext (hmap 5), funext (hmap 2)]

theorem count_cohortReads (n : Nat) (keys : List String) (k : String) :
    (cohortReads n keys).count (CacheOp.read k) = n * keys.count k := by
  induction keys with
  | nil => simp [cohortReads]
  | cons a ks ih =>
    simp only [cohortReads, List.flatMap_cons, List.count_append]
    rw [show (ks.flatMap fun k2 => List.replicate n (CacheOp.read k2)) =
        cohortReads n ks from rfl, ih, List.count_replicate, List.count_cons]
    by_cases hak : a = k
    · subst hak
      simp only [beq_self_eq_true, if_true]
      ring
    · have h1 : (CacheOp.read a == CacheOp.read k) = false := by
        simp [hak]
      have h2 : (a == k) = false := by
        simp [hak]
      rw [h1, h2]
      simp

/-- C8: in the access-pattern phase, the sequence of issued operations does
not depend on the read outcomes (failed reads are swallowed and change
nothing); every issued operation is a read (no write occurs); and a key
belonging to exactly one cohort receives exactly 10, 5 or 2 read attempts
according to whether its cohort is high, medium or low. -/
theorem access_pattern_reads
    (response response2 : String → Except String (Option String))
    (high medium low : List String) (k : String)
    (hh : high.Nodup) (hm : medium.Nodup) (hl : low.Nodup) :
    accessPhase response high medium low =
      accessPhase response2 high medium low ∧
    (∀ op ∈ accessPhase response high medium low, ∃ key, op = .read key) ∧
    (k ∈ high → k ∉ medium → k ∉ low →
      (accessPhase response high medium low).count (.read k) = 10) ∧
    (k ∈ medium → k ∉ high → k ∉ low →
      (accessPhase response high medium low).count (.read k) = 5) ∧
    (k ∈ low → k ∉ high → k ∉ medium →
      (accessPhase response high medium low).count (.read k) = 2) := by
  have hcount : ∀ k2, (accessPhase response high medium low).count (.read k2) =
      10 * high.count k2 + (5 * medium.count k2 + 2 * low.count k2) := by
    intro k2
    rw [accessPhase_canonical, List.count_append, List.count_append,
      count_cohortReads, count_cohortReads, count_cohortReads]
  refine ⟨?_, ?_, ?_, ?_, ?_⟩
  · rw [accessPhase_canonical, accessPhase_canonical]
  · intro op hop
    rw [accessPhase_canonical] at hop
    rcases List.mem_append.mp hop with h1 | h1
    · obtain ⟨k2, _, h2⟩ := List.mem_flatMap.mp h1
      exact ⟨k2, (List.eq_of_mem_replicate h2)⟩
    · rcases List.mem_append.mp h1 with h2 | h2
      · obtain ⟨k2, _, h3⟩ := List.mem_flatMap.mp h2
        exact ⟨k2, (List.eq_of_mem_replicate h3)⟩
      · obtain ⟨k2, _, h3⟩ := List.mem_flatMap.mp h2
        exact ⟨k2, (List.eq_of_mem_replicate h3)⟩
  · intro h1 h2 h3
    rw [hcount, List.count_eq_one_of_mem hh h1,
      List.count_eq_zero.mpr h2, List.count_eq_zero.mpr h3]
  · intro h1 h2 h3
    rw [hcount, List.count_eq_one_of_mem hm h1,
      List.count_eq_zero.mpr h2, List.count_eq_zero.mpr h3]
  · intro h1 h2 h3
    rw [hcount, List.count_eq_one_of_mem hl h1,
      List.count_eq_zero.mpr h2, List.count_eq_zero.mpr h3]

/-- Witness for C8 at concrete cohorts: with cohorts `["a"]`, `["b"]`, `["c"]`
the phase issues only reads, independently of the responses, with counts 10,
5 and 2. -/
theorem access_pattern_reads_witness :
    (["a"] : List String).Nodup ∧
    (accessPhase (fun _ => .error "down") ["a"] ["b"] ["c"] =
        accessPhase (fun _ => .ok none) ["a"] ["b"] ["c"] ∧
      (∀ op ∈ accessPhase (fun _ => .error "down") ["a"] ["b"] ["c"],
        ∃ key, op = .read key) ∧
      ("a" ∈ (["a"] : List String) → "a" ∉ (["b"] : List String) →
        "a" ∉ (["c"] : List String) →
        (accessPhase (fun _ => .error "down") ["a"] ["b"] ["c"]).count
          (.read "a") = 10) ∧
      ("a" ∈ (["b"] : List String) → "a" ∉ (["a"] : List String) →
        "a" ∉ (["c"] : List String) →
        (accessPhase (fun _ => .error "down") ["a"] ["b"] ["c"]).count
          (.read "a") = 5) ∧
      ("a" ∈ (["c"] : List String) → "a" ∉ (["a"] : List String) →
        "a" ∉ (["b"] : List String) →
        (accessPhase (fun _ => .error "down") ["a"] ["b"] ["c"]).count
          (.read "a") = 2)) := by
  exact ⟨by decide, access_pattern_reads (fun _ => .error "down")
    (fun _ => .ok none) ["a"] ["b"] ["c"] "a"
    (by decide) (by decide) (by decide)⟩

end RedisDemo
